import Mathlib

/-!
# FileServer_UDS: the session worker of `Server/server.c`

A shallow embedding of the server's per-connection worker (`handle_client`) and of the
file operations it calls (`send_file_list`, `receive_file`, `send_file`), followed by
theorems about the session protocol.

Conventions of the embedding.

* A C `char` is a `Char`; an array or a run of bytes is a `List Char` (`Bytes`).
* A `const char *` argument and a string literal are represented by their contents,
  the characters before the terminating NUL.
* `write(sock, b, k)` appends one element to the list of messages sent to the peer.
* `read(sock, buffer, 256)` is an input of a step: the bytes it returned.  The empty
  list stands for a return value `n <= 0`.
* When all 256 bytes of a read are neither NUL nor newline, `strcspn` runs past the end
  of `buffer` and the store `buffer[...] = 0` lands outside the array.  C leaves that
  undefined; a step on such a read is `none`.
* The process-wide variables `file_data` / `file_data_size` are the field `file_data`
  of `Shared` (`file_data_size` is its length); the directory `./files` is `Shared.store`.
-/

namespace FileServer

set_option maxRecDepth 8000

/-- A run of C `char`s. -/
abbrev Bytes := List Char

/-- The string terminator. -/
def NUL : Char := Char.ofNat 0

/-- The newline character. -/
def NL : Char := Char.ofNat 10

/-- The macro `PASSWORD`, defined as `"secret"`. -/
def PASSWORD : Bytes := "secret".toList

/-- The macro `FILES_DIR`, defined as `"./files"`. -/
def FILES_DIR : Bytes := "./files".toList

/-- The call `snprintf(dst, size, ...)` keeps at most `size - 1` characters of the formatted text. -/
def snprintf (size : Nat) (text : Bytes) : Bytes := text.take (size - 1)

/-- The C string that starts at the head of an array: the characters before the first NUL. -/
def cstr (a : Bytes) : Bytes := a.takeWhile (fun c => c != NUL)

/-- The test `strcmp(a, s) == 0` for a string `s`. -/
def strcmp_eq (a s : Bytes) : Bool := cstr a == s

/-- The test `strncmp(a, s, strlen(s)) == 0` for a string `s`. -/
def strncmp_eq (a s : Bytes) : Bool := a.take s.length == s

/-- The call `strcspn(a, "\n")`: the number of characters before the first newline or NUL. -/
def strcspn (a : Bytes) : Nat := (a.takeWhile (fun c => c != NUL && c != NL)).length

/-- The statement `buffer[strcspn(buffer, "\n")] = 0;`, for an index inside the array. -/
def stripNewline (a : Bytes) : Bytes := a.set (strcspn a) NUL

/-- The array `char buffer[256]` after `memset(buffer, 0, sizeof(buffer))` and a `read`
that returned the bytes `msg`. -/
def recvBuffer (msg : Bytes) : Bytes := msg ++ List.replicate (256 - msg.length) NUL

/-- Whether the index `strcspn(buffer, "\n")` lies inside `char buffer[256]` after a `read`
that returned `msg`. -/
def inBounds (msg : Bytes) : Bool := decide (strcspn (recvBuffer msg) < 256)

/-- The field `d_type` of a directory entry. -/
inductive DType where
  | DT_REG
  | DT_DIR
  | DT_OTHER
  deriving DecidableEq, Repr

/-- One `struct dirent` returned by `readdir`. -/
structure Dirent where
  d_name : Bytes
  d_type : DType
  deriving DecidableEq, Repr

/-- The directory `./files`: the content found under each path (the first entry for a
path is the current one) and whether `fopen(path, "w")` succeeds. -/
structure Store where
  files : List (Bytes × Bytes)
  writable : Bytes → Bool

/-- The call `fopen(path, "r")` and the content then read: `none` when the open fails. -/
def fopen_r (s : Store) (path : Bytes) : Option Bytes := s.files.lookup path

/-- The calls `fopen(path, "w")`, `fwrite` of `data`, `fclose`, when the open succeeded. -/
def fwrite_all (s : Store) (path data : Bytes) : Store :=
  { s with files := (path, data) :: s.files }

/-- The state shared by every worker thread of the process. -/
structure Shared where
  file_data : Bytes
  store : Store

/-- The path `snprintf(filepath, sizeof(filepath), "%s/%s", FILES_DIR, filename)`. -/
def filepath (filename : Bytes) : Bytes :=
  snprintf 256 (FILES_DIR ++ "/".toList ++ filename)

/-- The function `send_file_list`; `dir` is what `opendir` and `readdir` return. -/
def send_file_list (dir : Option (List Dirent)) : List Bytes :=
  match dir with
  | some entries =>
    "\nFiles in the directory:\n\n".toList ::
      (entries.filter (fun e => e.d_type == DType.DT_REG)).map
        (fun e => snprintf 1024 (e.d_name ++ "\n".toList))
  | none => ["Unable to open directory.\n".toList]

/-- The function `receive_file`: the new shared state and the messages written. -/
def receive_file (g : Shared) (filename : Bytes) : Shared × List Bytes :=
  if g.file_data.length > 0 then
    if g.store.writable (filepath filename) then
      ({ file_data := [], store := fwrite_all g.store (filepath filename) g.file_data },
        [snprintf 256 ("File ".toList ++ filename ++ " uploaded successfully.\n".toList)])
    else
      ({ g with file_data := [] }, ["Error writing file to the server.\n".toList])
  else
    (g, ["No data received for the file.\n".toList])

/-- The function `send_file`: the messages written. -/
def send_file (g : Shared) (filename : Bytes) : List Bytes :=
  match fopen_r g.store (filepath filename) with
  | none => [snprintf 256 ("File ".toList ++ filename ++ " not found.\n".toList)]
  | some content =>
    [ "||".toList ++ content.take (1024 - 2),
      snprintf 1024 ("File ".toList ++ filename ++ " downloaded successfully.\n".toList) ]

/-- Where a worker thread is in `handle_client`. -/
inductive Phase where
  | auth
  | command
  | closed
  deriving DecidableEq, Repr

/-- The local variables of `handle_client` that outlive one loop iteration. -/
structure Worker where
  phase : Phase
  readFile : Bool
  name : Bytes
  deriving DecidableEq, Repr

/-- What a worker writes before it blocks in `read`: the password prompt in the first
loop, the command prompt in the second unless `readFile` is set. -/
def promptOf (w : Worker) : List Bytes :=
  match w.phase with
  | Phase.auth => ["Enter the password: ".toList]
  | Phase.command =>
    if w.readFile then []
    else ["Enter the command (list, download <filename>, upload <filename>, exit):\n".toList]
  | Phase.closed => []

/-- One iteration of the authentication loop after its `read` returned `msg`.  A return
value `n <= 0` leaves the loop with `break`, which continues with the command loop. -/
def authStep (w : Worker) (msg : Bytes) : Option (Worker × List Bytes) :=
  if msg.length ≤ 0 then some ({ w with phase := Phase.command }, [])
  else if inBounds msg then
    let buffer := stripNewline (recvBuffer msg)
    if strcmp_eq buffer PASSWORD then
      some ({ w with phase := Phase.command }, ["Password correct.\n".toList])
    else
      some (w, ["Password incorrect. Try again.\n".toList])
  else none

/-- Lines 179 to 185: a buffer that starts with the marker is copied, without the marker,
into the shared transfer buffer (`n` is the number of bytes read). -/
def stage (g : Shared) (buffer : Bytes) (n : Nat) : Shared :=
  if strncmp_eq buffer "||".toList then
    { g with file_data := (buffer.drop 2).take (n - 2) }
  else g

/-- Lines 200 to 203: the check made after the command dispatch. -/
def storePending (w : Worker) (g : Shared) (out : List Bytes) :
    Worker × Shared × List Bytes :=
  if w.readFile && decide (g.file_data.length > 0) then
    ({ w with readFile := false }, (receive_file g w.name).1, out ++ (receive_file g w.name).2)
  else (w, g, out)

/-- Lines 187 to 203: the command dispatch on the buffer, then the pending-upload check.
`exit` leaves the loop before that check. -/
def dispatch (dir : Option (List Dirent)) (w : Worker) (g : Shared) (buffer : Bytes) :
    Worker × Shared × List Bytes :=
  if strcmp_eq buffer "list".toList then
    storePending w g (send_file_list dir)
  else if strncmp_eq buffer "download ".toList then
    storePending w g (send_file g (cstr (buffer.drop 9)))
  else if strncmp_eq buffer "upload ".toList then
    storePending { w with readFile := true, name := (cstr (buffer.drop 7)).take 255 } g []
  else if strcmp_eq buffer "exit".toList then
    ({ w with phase := Phase.closed }, g, [])
  else
    storePending w g []

/-- One iteration of the command loop after its `read` returned `msg`. -/
def cmdStep (dir : Option (List Dirent)) (w : Worker) (g : Shared) (msg : Bytes) :
    Option (Worker × Shared × List Bytes) :=
  if msg.length ≤ 0 then some ({ w with phase := Phase.closed }, g, [])
  else if inBounds msg then
    let buffer := stripNewline (recvBuffer msg)
    some (dispatch dir w (stage g buffer msg.length) buffer)
  else none

/-- The reaction of a worker to the bytes returned by its next `read`. -/
def step (dir : Option (List Dirent)) (w : Worker) (g : Shared) (msg : Bytes) :
    Option (Worker × Shared × List Bytes) :=
  match w.phase with
  | Phase.auth => (authStep w msg).map (fun r => (r.1, g, r.2))
  | Phase.command => cmdStep dir w g msg
  | Phase.closed => some (w, g, [])

/-- A worker run alone over a sequence of reads, each paired with the directory
enumeration the system would return at that moment: the final state and every message
written, prompts included. -/
def run : Worker → Shared → List (Option (List Dirent) × Bytes) →
    Option (Worker × Shared × List Bytes)
  | w, g, [] => some (w, g, promptOf w)
  | w, g, (dir, msg) :: rest =>
    match step dir w g msg with
    | none => none
    | some r =>
      match run r.1 r.2.1 rest with
      | none => none
      | some t => some (t.1, t.2.1, promptOf w ++ r.2.2 ++ t.2.2)

/-- A worker that has just passed authentication. -/
def authenticated : Worker := { phase := Phase.command, readFile := false, name := [] }

/-- An empty, writable file directory with an empty transfer buffer. -/
def emptyShared : Shared := { file_data := [], store := { files := [], writable := fun _ => true } }

/-- An empty file directory in which `fopen(path, "w")` always fails. -/
def lockedShared : Shared :=
  { file_data := [], store := { files := [], writable := fun _ => false } }

/-- The bytes of one client `write` as the server's 256-byte reads return them, when the
whole message is available and nothing else has arrived: 256 bytes at a time. -/
def chunks : Nat → Bytes → List Bytes
  | 0, _ => []
  | fuel + 1, m => if m.length ≤ 256 then [m] else m.take 256 :: chunks fuel (m.drop 256)

/-- The reads that deliver one client message. -/
def deliver (m : Bytes) : List Bytes := chunks m.length m

/-- A worker run alone over a sequence of client messages. -/
def serve (w : Worker) (g : Shared) (msgs : List Bytes) :
    Option (Worker × Shared × List Bytes) :=
  run w g ((msgs.flatMap deliver).map (fun m => (none, m)))

/-- The text of a received message as the worker's string functions see it: the characters
before the first newline or NUL. -/
def lineOf (msg : Bytes) : Bytes := msg.takeWhile (fun c => c != NUL && c != NL)

/-- The submitted line with its newline stripped, read as bytes: the characters before
the first newline. -/
def specLine (msg : Bytes) : Bytes := msg.takeWhile (fun c => c != NL)

/-- A string that can stand on a control line: no NUL and no newline in it. -/
def plain (s : Bytes) : Prop := ∀ c ∈ s, (c != NUL && c != NL) = true

instance plainDecidable (s : Bytes) : Decidable (plain s) :=
  inferInstanceAs (Decidable (∀ c ∈ s, (c != NUL && c != NL) = true))

/-- The names of the two worker threads of the concurrency model. -/
inductive Tid where
  | A
  | B
  deriving DecidableEq, Repr

/-- The two atomic segments of one iteration of the command loop.  `recv msg` is lines
164 to 185: the prompt, the `read` that returns `msg`, the newline strip and the staging
under the mutex.  `resume dir` is lines 187 to 205: the dispatch and the pending-upload
check on the buffer read before.  Between the two the thread holds no lock and touches
only its own locals, so another thread may run there. -/
inductive Action where
  | recv (msg : Bytes)
  | resume (dir : Option (List Dirent))

/-- A worker thread between two segments: its locals, the buffer it has read and not yet
dispatched, and the messages it has written to its own client. -/
structure Thread where
  worker : Worker
  pending : Option Bytes
  sent : List Bytes

/-- One segment of a thread in the command loop, on the shared state.  A segment that
is not the thread's next one leaves everything as it is; a read that sends `strcspn` past
the array is `none`. -/
def threadStep (t : Thread) (g : Shared) (act : Action) : Option (Thread × Shared) :=
  match act, t.pending with
  | Action.recv msg, none =>
    if t.worker.phase = Phase.command ∧ 0 < msg.length then
      if inBounds msg then
        some ({ t with pending := some (stripNewline (recvBuffer msg)),
                       sent := t.sent ++ promptOf t.worker },
          stage g (stripNewline (recvBuffer msg)) msg.length)
      else none
    else some (t, g)
  | Action.resume dir, some buffer =>
    some ({ worker := (dispatch dir t.worker g buffer).1, pending := none,
            sent := t.sent ++ (dispatch dir t.worker g buffer).2.2 },
      (dispatch dir t.worker g buffer).2.1)
  | _, _ => some (t, g)

/-- Two worker threads and the state they share. -/
structure System where
  a : Thread
  b : Thread
  shared : Shared

/-- The system after one segment of the named thread. -/
def sysStep (s : System) (e : Tid × Action) : Option System :=
  match e.1 with
  | Tid.A => (threadStep s.a s.shared e.2).map (fun r => { s with a := r.1, shared := r.2 })
  | Tid.B => (threadStep s.b s.shared e.2).map (fun r => { s with b := r.1, shared := r.2 })

/-- The system after a schedule of segments. -/
def runSchedule : System → List (Tid × Action) → Option System
  | s, [] => some s
  | s, e :: rest =>
    match sysStep s e with
    | none => none
    | some s2 => runSchedule s2 rest

/-- The messages a schedule delivers to the named thread, in order. -/
def receivedBy (tid : Tid) (sched : List (Tid × Action)) : List Bytes :=
  sched.filterMap (fun e =>
    match e.2 with
    | Action.recv msg => if e.1 = tid then some msg else none
    | Action.resume _ => none)

/-- Two authenticated sessions on the shared state `g`. -/
def sessionsOn (g : Shared) : System :=
  { a := { worker := authenticated, pending := none, sent := [] },
    b := { worker := authenticated, pending := none, sent := [] },
    shared := g }

/-- An interleaving of two uploads: both sessions name their file, both payloads are
staged, and only then does session A, and after it session B, run its pending-upload
check. -/
def crossed (nameA nameB pA pB : Bytes) : List (Tid × Action) :=
  [ (Tid.A, Action.recv ("upload ".toList ++ nameA ++ "\n".toList)), (Tid.A, Action.resume none),
    (Tid.B, Action.recv ("upload ".toList ++ nameB ++ "\n".toList)), (Tid.B, Action.resume none),
    (Tid.A, Action.recv ("||".toList ++ pA)),
    (Tid.B, Action.recv ("||".toList ++ pB)),
    (Tid.A, Action.resume none),
    (Tid.B, Action.resume none) ]

/-! ## The receive buffer and the command dispatch -/

/-- The string functions stop at the first NUL of the zero padding, so on the received
array they see the line of the message. -/
theorem takeWhile_pad (msg : Bytes) (k : Nat) :
    (msg ++ List.replicate k NUL).takeWhile (fun c => c != NUL && c != NL) = lineOf msg := by
  induction msg with
  | nil => cases k <;> simp [lineOf, List.replicate_succ, List.takeWhile]
  | cons x xs ih =>
    simp only [lineOf, List.cons_append, List.takeWhile_cons] at ih ⊢
    split <;> simp_all

theorem cstr_stripNewline (a : Bytes) :
    cstr (stripNewline a) = a.takeWhile (fun c => c != NUL && c != NL) := by
  induction a with
  | nil => simp [stripNewline, strcspn, cstr]
  | cons x xs ih =>
    by_cases hx : (x != NUL && x != NL) = true
    · have hx1 : (x != NUL) = true := by simp_all
      have hx2 : (x != NL) = true := by simp_all
      simp only [stripNewline, strcspn, cstr, List.takeWhile_cons, hx1, hx2, Bool.and_self, if_true,
        List.length_cons, List.set_cons_succ] at ih ⊢
      rw [ih]
    · simp [stripNewline, strcspn, cstr, List.takeWhile_cons, hx]

theorem cstr_buffer (msg : Bytes) : cstr (stripNewline (recvBuffer msg)) = lineOf msg := by
  rw [cstr_stripNewline, recvBuffer, takeWhile_pad]

theorem take_stripNewline (lit : Bytes) (hlit : plain lit) (a : Bytes) :
    (stripNewline a).take lit.length = lit ↔
      (a.takeWhile (fun c => c != NUL && c != NL)).take lit.length = lit := by
  induction lit generalizing a with
  | nil => simp
  | cons c cs ih =>
    have hc : (c != NUL && c != NL) = true := hlit c (List.mem_cons_self _ _)
    have hcs : plain cs := fun d hd => hlit d (List.mem_cons_of_mem _ hd)
    cases a with
    | nil => simp [stripNewline, strcspn]
    | cons x xs =>
      by_cases hx : (x != NUL && x != NL) = true
      · have := ih hcs xs
        have hx1 : (x != NUL) = true := by simp_all
        have hx2 : (x != NL) = true := by simp_all
        simp only [stripNewline, strcspn, List.takeWhile_cons, hx1, hx2, Bool.and_self, if_true,
          List.length_cons, List.set_cons_succ, List.take_succ_cons, List.cons.injEq] at this ⊢
        rw [this]
      · have hne : NUL ≠ c := by
          intro h; subst h; simp at hc
        simp [stripNewline, strcspn, List.takeWhile_cons, hx, hne]

/-- On the received array `strncmp` with a literal compares the head of the line. -/
theorem strncmp_buffer (lit : Bytes) (hlit : plain lit) (msg : Bytes) :
    strncmp_eq (stripNewline (recvBuffer msg)) lit = ((lineOf msg).take lit.length == lit) := by
  have h := take_stripNewline lit hlit (recvBuffer msg)
  rw [recvBuffer, takeWhile_pad] at h
  rw [Bool.eq_iff_iff]
  simpa [strncmp_eq, recvBuffer] using h

/-- On the received array `strcmp` compares the line of the message. -/
theorem strcmp_buffer (s msg : Bytes) :
    strcmp_eq (stripNewline (recvBuffer msg)) s = (lineOf msg == s) := by
  simp [strcmp_eq, cstr_buffer]

theorem stripNewline_line (xs : Bytes) (hxs : plain xs) (rest : Bytes) :
    stripNewline (xs ++ NL :: rest) = xs ++ NUL :: rest := by
  induction xs with
  | nil => simp [stripNewline, strcspn, NL, NUL]
  | cons x xs ih =>
    have hx : (x != NUL && x != NL) = true := hxs x (List.mem_cons_self _ _)
    have hx1 : (x != NUL) = true := by simp_all
    have hx2 : (x != NL) = true := by simp_all
    have := ih (fun d hd => hxs d (List.mem_cons_of_mem _ hd))
    simp only [stripNewline, strcspn, List.cons_append, List.takeWhile_cons, hx1, hx2,
      Bool.and_self, if_true, List.length_cons, List.set_cons_succ] at this ⊢
    rw [this]

theorem cstr_plain (xs : Bytes) (hxs : plain xs) (rest : Bytes) :
    cstr (xs ++ NUL :: rest) = xs := by
  induction xs with
  | nil => simp [cstr, NUL]
  | cons x xs ih =>
    have hx : (x != NUL && x != NL) = true := hxs x (List.mem_cons_self _ _)
    have hx1 : (x != NUL) = true := by simp_all
    have := ih (fun d hd => hxs d (List.mem_cons_of_mem _ hd))
    simp only [cstr, List.cons_append, List.takeWhile_cons, hx1, if_true] at this ⊢
    rw [this]

theorem lineOf_line (xs : Bytes) (hxs : plain xs) (rest : Bytes) :
    lineOf (xs ++ NL :: rest) = xs := by
  induction xs with
  | nil => simp [lineOf, NL, NUL]
  | cons x xs ih =>
    have hx : (x != NUL && x != NL) = true := hxs x (List.mem_cons_self _ _)
    have := ih (fun d hd => hxs d (List.mem_cons_of_mem _ hd))
    simp only [lineOf, List.cons_append, List.takeWhile_cons, hx, if_true] at this ⊢
    rw [this]

theorem plain_append (xs ys : Bytes) (hxs : plain xs) (hys : plain ys) : plain (xs ++ ys) := by
  intro c hc
  rcases List.mem_append.mp hc with h | h
  · exact hxs c h
  · exact hys c h

/-- The array after a newline-terminated line was read and stripped: the line, a NUL in
place of the newline, and the zero padding. -/
theorem buffer_line (s : Bytes) (hs : plain s) :
    stripNewline (recvBuffer (s ++ "\n".toList)) =
      s ++ NUL :: List.replicate (256 - (s.length + 1)) NUL := by
  have : recvBuffer (s ++ "\n".toList) = s ++ NL :: List.replicate (256 - (s.length + 1)) NUL := by
    simp [recvBuffer, NL]
  rw [this, stripNewline_line s hs]

theorem plain_download : plain "download ".toList := by decide

theorem plain_upload : plain "upload ".toList := by decide

theorem plain_marker : plain "||".toList := by decide

theorem storePending_idle (w : Worker) (g : Shared) (out : List Bytes) (h : w.readFile = false) :
    storePending w g out = (w, g, out) := by
  simp [storePending, h]

theorem cstr_pad (p : Bytes) (k : Nat) : cstr (p ++ List.replicate k NUL) = cstr p := by
  induction p with
  | nil => cases k <;> simp [cstr, List.replicate_succ, NUL]
  | cons x xs ih =>
    simp only [cstr, List.cons_append, List.takeWhile_cons] at ih ⊢
    split <;> simp_all

/-- The newline strip changes nothing when the first terminator is a NUL. -/
theorem stripNewline_noop (a : Bytes) (h : NL ∉ cstr a) : stripNewline a = a := by
  induction a with
  | nil => simp [stripNewline, strcspn]
  | cons x xs ih =>
    by_cases hx1 : x = NUL
    · subst hx1
      simp [stripNewline, strcspn, NUL]
    · have hc : cstr (x :: xs) = x :: cstr xs := by
        simp [cstr, hx1]
      rw [hc] at h
      have hx2 : x ≠ NL := fun e => h (by rw [e]; exact List.mem_cons_self _ _)
      have hxs : NL ∉ cstr xs := fun e => h (List.mem_cons_of_mem _ e)
      have := ih hxs
      have b1 : (x != NUL) = true := by simpa using hx1
      have b2 : (x != NL) = true := by simpa using hx2
      simp only [stripNewline, strcspn, List.takeWhile_cons, b1, b2, Bool.and_self, if_true,
        List.length_cons, List.set_cons_succ] at this ⊢
      rw [this]

theorem buffer_payload (p : Bytes) (h : NL ∉ cstr p) :
    stripNewline (recvBuffer ("||".toList ++ p)) = recvBuffer ("||".toList ++ p) := by
  apply stripNewline_noop
  have : cstr (recvBuffer ("||".toList ++ p)) = '|' :: '|' :: cstr p := by
    have h2 : recvBuffer ("||".toList ++ p) =
        '|' :: '|' :: (p ++ List.replicate (256 - ("||".toList ++ p).length) NUL) := by
      simp [recvBuffer]
    rw [h2, ← cstr_pad p (256 - ("||".toList ++ p).length)]
    simp [cstr, NUL]
  rw [this]
  intro hmem
  simp only [List.mem_cons] at hmem
  rcases hmem with e | e | e
  · exact absurd e (by decide)
  · exact absurd e (by decide)
  · exact h e

theorem lineOf_payload (p : Bytes) : lineOf ("||".toList ++ p) = '|' :: '|' :: lineOf p := by
  simp [lineOf, NUL, NL]

/-- Staging a payload message of at most 254 bytes with no newline before its first NUL
puts exactly its bytes into the transfer buffer. -/
theorem stage_payload (g : Shared) (p : Bytes) (h : NL ∉ cstr p) :
    stage g (stripNewline (recvBuffer ("||".toList ++ p))) ("||".toList ++ p).length =
      { g with file_data := p } := by
  have hs : strncmp_eq (stripNewline (recvBuffer ("||".toList ++ p))) "||".toList = true := by
    rw [strncmp_buffer _ plain_marker, lineOf_payload]
    simp
  unfold stage
  rw [if_pos hs, buffer_payload p h]
  have : ((recvBuffer ("||".toList ++ p)).drop 2).take (("||".toList ++ p).length - 2) = p := by
    simp [recvBuffer]
  rw [this]

/-- Staging leaves the transfer buffer alone when the line does not start with the marker. -/
theorem stage_control (g : Shared) (msg : Bytes) (n : Nat)
    (h : (lineOf msg).take 2 ≠ "||".toList) :
    stage g (stripNewline (recvBuffer msg)) n = g := by
  unfold stage
  rw [strncmp_buffer _ plain_marker]
  have h2 : ("||".toList).length = 2 := by decide
  rw [h2, if_neg]
  rw [beq_iff_eq]
  exact h

/-- A message that starts with the marker matches none of the four commands. -/
theorem dispatch_payload (dir : Option (List Dirent)) (w : Worker) (g : Shared) (p : Bytes) :
    dispatch dir w g (stripNewline (recvBuffer ("||".toList ++ p))) = storePending w g [] := by
  simp only [dispatch, strcmp_buffer, strncmp_buffer _ plain_download,
    strncmp_buffer _ plain_upload, lineOf_payload]
  simp

theorem dispatch_download (dir : Option (List Dirent)) (w : Worker) (g : Shared) (name : Bytes)
    (hname : plain name) :
    dispatch dir w g (stripNewline (recvBuffer ("download ".toList ++ name ++ "\n".toList))) =
      storePending w g (send_file g name) := by
  have hp : plain ("download ".toList ++ name) := plain_append _ _ plain_download hname
  have hline : lineOf ("download ".toList ++ name ++ "\n".toList) = "download ".toList ++ name := by
    have := lineOf_line _ hp []
    simpa [NL] using this
  have hdrop : cstr ((stripNewline (recvBuffer ("download ".toList ++ name ++ "\n".toList))).drop 9)
      = name := by
    rw [buffer_line _ hp]
    have : ("download ".toList ++ name ++ NUL :: List.replicate
        (256 - (("download ".toList ++ name).length + 1)) NUL).drop 9
        = name ++ NUL :: List.replicate (256 - (("download ".toList ++ name).length + 1)) NUL := by
      simp
    rw [this, cstr_plain name hname]
  simp only [dispatch, strcmp_buffer, strncmp_buffer _ plain_download, hline, hdrop]
  simp

theorem dispatch_upload (dir : Option (List Dirent)) (w : Worker) (g : Shared) (name : Bytes)
    (hname : plain name) (hlen : name.length ≤ 255) :
    dispatch dir w g (stripNewline (recvBuffer ("upload ".toList ++ name ++ "\n".toList))) =
      storePending { w with readFile := true, name := name } g [] := by
  have hp : plain ("upload ".toList ++ name) := plain_append _ _ plain_upload hname
  have hline : lineOf ("upload ".toList ++ name ++ "\n".toList) = "upload ".toList ++ name := by
    have := lineOf_line _ hp []
    simpa [NL] using this
  have hdrop : (cstr ((stripNewline (recvBuffer ("upload ".toList ++ name ++ "\n".toList))).drop 7)).take 255
      = name := by
    rw [buffer_line _ hp]
    have : ("upload ".toList ++ name ++ NUL :: List.replicate
        (256 - (("upload ".toList ++ name).length + 1)) NUL).drop 7
        = name ++ NUL :: List.replicate (256 - (("upload ".toList ++ name).length + 1)) NUL := by
      simp
    rw [this, cstr_plain name hname, List.take_of_length_le hlen]
  simp only [dispatch, strcmp_buffer, strncmp_buffer _ plain_download,
    strncmp_buffer _ plain_upload, hline, hdrop]
  simp

theorem lineOf_command_not_marker (lit name : Bytes) (c d : Char) (rest : Bytes)
    (hlit : lit = c :: d :: rest) (hc : c ≠ '|') (hl : plain lit) (hname : plain name) :
    (lineOf (lit ++ name ++ "\n".toList)).take 2 ≠ "||".toList := by
  have hp : plain (lit ++ name) := plain_append _ _ hl hname
  have : lineOf (lit ++ name ++ "\n".toList) = lit ++ name := by
    have := lineOf_line _ hp []
    simpa [NL] using this
  rw [this, hlit]
  simp [hc]

theorem download_not_marker (name : Bytes) (hname : plain name) :
    (lineOf ("download ".toList ++ name ++ "\n".toList)).take 2 ≠ "||".toList :=
  lineOf_command_not_marker _ name 'd' 'o' "wnload ".toList rfl (by decide) plain_download hname

theorem upload_not_marker (name : Bytes) (hname : plain name) :
    (lineOf ("upload ".toList ++ name ++ "\n".toList)).take 2 ≠ "||".toList :=
  lineOf_command_not_marker _ name 'u' 'p' "load ".toList rfl (by decide) plain_upload hname

theorem storePending_empty (w : Worker) (g : Shared) (out : List Bytes) (h : g.file_data = []) :
    storePending w g out = (w, g, out) := by
  simp [storePending, h]

theorem fopen_after_write (s : Store) (path data : Bytes) :
    fopen_r (fwrite_all s path data) path = some data := by
  simp [fopen_r, fwrite_all, List.lookup]

theorem deliver_short (m : Bytes) (h0 : 0 < m.length) (h : m.length ≤ 256) : deliver m = [m] := by
  unfold deliver
  obtain ⟨k, hk⟩ : ∃ k, m.length = k + 1 := ⟨m.length - 1, by omega⟩
  rw [hk, chunks, if_pos h]

/-! ## One iteration of the command loop -/

theorem strcspn_buffer (msg : Bytes) : strcspn (recvBuffer msg) = (lineOf msg).length := by
  rw [strcspn, recvBuffer, takeWhile_pad]

theorem lineOf_length_le (msg : Bytes) : (lineOf msg).length ≤ msg.length := by
  unfold lineOf
  induction msg with
  | nil => simp
  | cons x xs ih =>
    rw [List.takeWhile_cons]
    split
    · simp only [List.length_cons]; omega
    · simp

theorem inBounds_of_line_lt (msg : Bytes) (h : (lineOf msg).length < 256) :
    inBounds msg = true := by
  simp [inBounds, strcspn_buffer, h]

theorem inBounds_of_short (msg : Bytes) (h : msg.length < 256) : inBounds msg = true :=
  inBounds_of_line_lt msg (lt_of_le_of_lt (lineOf_length_le msg) h)

theorem lineOf_of_line (s : Bytes) (hs : plain s) : lineOf (s ++ "\n".toList) = s := by
  have := lineOf_line s hs []
  simpa [NL] using this

theorem inBounds_line (s : Bytes) (hs : plain s) (hfit : (s ++ "\n".toList).length ≤ 256) :
    inBounds (s ++ "\n".toList) = true := by
  apply inBounds_of_line_lt
  rw [lineOf_of_line s hs]
  simp at hfit
  omega

theorem filepath_short (name : Bytes) (h : name.length ≤ 247) :
    filepath name = FILES_DIR ++ "/".toList ++ name := by
  unfold filepath snprintf
  apply List.take_of_length_le
  simp [FILES_DIR]
  omega

/-- What `send_file` writes for a file that is present: the marker with at most 1022 bytes
of content, then the success line. -/
theorem send_file_found (g : Shared) (name c : Bytes) (hlen : name.length ≤ 247)
    (hc : fopen_r g.store (FILES_DIR ++ "/".toList ++ name) = some c) :
    send_file g name =
      [ "||".toList ++ c.take 1022,
        "File ".toList ++ name ++ " downloaded successfully.\n".toList ] := by
  have hline : snprintf 1024 ("File ".toList ++ name ++ " downloaded successfully.\n".toList) =
      "File ".toList ++ name ++ " downloaded successfully.\n".toList := by
    unfold snprintf
    apply List.take_of_length_le
    simp
    omega
  unfold send_file
  rw [filepath_short name hlen, hc]
  simp only [hline]

/-- The command loop on `download <name>` while no upload is pending: the reply is that of
`send_file` and nothing else changes. -/
theorem cmdStep_download (dir : Option (List Dirent)) (w : Worker) (g : Shared) (name : Bytes)
    (hr : w.readFile = false) (hname : plain name)
    (hfit : ("download ".toList ++ name ++ "\n".toList).length ≤ 256) :
    cmdStep dir w g ("download ".toList ++ name ++ "\n".toList) =
      some (w, g, send_file g name) := by
  have hlen : ¬ ("download ".toList ++ name ++ "\n".toList).length ≤ 0 := by simp
  have hin := inBounds_line _ (plain_append _ _ plain_download hname) hfit
  unfold cmdStep
  rw [if_neg hlen, if_pos hin]
  simp only [stage_control g _ _ (download_not_marker name hname),
    dispatch_download dir w g name hname, storePending_idle _ _ _ hr]

/-- The command loop on `upload <name>` while the transfer buffer is empty: the name is
recorded, the flag is set, nothing is written. -/
theorem cmdStep_upload (dir : Option (List Dirent)) (w : Worker) (g : Shared) (name : Bytes)
    (hg : g.file_data = []) (hname : plain name)
    (hfit : ("upload ".toList ++ name ++ "\n".toList).length ≤ 256) :
    cmdStep dir w g ("upload ".toList ++ name ++ "\n".toList) =
      some ({ w with readFile := true, name := name }, g, []) := by
  have hl : ¬ ("upload ".toList ++ name ++ "\n".toList).length ≤ 0 := by simp
  have hin := inBounds_line _ (plain_append _ _ plain_upload hname) hfit
  have hlen : name.length ≤ 255 := by
    simp at hfit
    omega
  unfold cmdStep
  rw [if_neg hl, if_pos hin]
  simp only [stage_control g _ _ (upload_not_marker name hname),
    dispatch_upload dir w g name hname hlen, storePending_empty _ _ _ hg]

theorem receive_file_ok (g : Shared) (name : Bytes) (hp : 0 < g.file_data.length)
    (hwr : g.store.writable (filepath name) = true) :
    receive_file g name =
      ({ file_data := [], store := fwrite_all g.store (filepath name) g.file_data },
        [snprintf 256 ("File ".toList ++ name ++ " uploaded successfully.\n".toList)]) := by
  unfold receive_file
  rw [if_pos hp, if_pos hwr]

/-- The command loop on a payload message while an upload is pending: the bytes are
written under the recorded name and the success line is sent. -/
theorem cmdStep_payload (dir : Option (List Dirent)) (w : Worker) (g : Shared) (p : Bytes)
    (hr : w.readFile = true) (hp : 0 < p.length) (hfit : ("||".toList ++ p).length < 256)
    (hnl : NL ∉ cstr p) (hwr : g.store.writable (filepath w.name) = true) :
    cmdStep dir w g ("||".toList ++ p) =
      some ({ w with readFile := false },
        { file_data := [], store := fwrite_all g.store (filepath w.name) p },
        [snprintf 256 ("File ".toList ++ w.name ++ " uploaded successfully.\n".toList)]) := by
  have hl : ¬ ("||".toList ++ p).length ≤ 0 := by simp
  have hin := inBounds_of_short _ hfit
  unfold cmdStep
  rw [if_neg hl, if_pos hin]
  simp only [stage_payload g p hnl, dispatch_payload]
  have hrf := receive_file_ok { g with file_data := p } w.name hp hwr
  simp only [storePending, hr, hp, decide_True, Bool.and_self, if_true, hrf, List.nil_append]

/-! ## Authentication -/

/-- C1, as stated, fails: a read in which a NUL byte follows the secret is accepted,
although the submitted line with its newline stripped, `secret\0x`, is not the secret. -/
theorem auth_iff_specLine_fails :
    ¬ ∀ (w : Worker) (msg : Bytes), 0 < msg.length → msg.length ≤ 256 →
        (authStep w msg =
            some ({ w with phase := Phase.command }, ["Password correct.\n".toList]) ↔
          specLine msg = PASSWORD) := by
  intro h
  have h1 := h { phase := Phase.auth, readFile := false, name := [] }
    ("secret".toList ++ [NUL] ++ "x\n".toList) (by decide) (by decide)
  exact absurd (h1.1 (by decide)) (by decide)

theorem step_auth (dir : Option (List Dirent)) (w : Worker) (g : Shared) (m : Bytes)
    (hw : w.phase = Phase.auth) (hm : 0 < m.length) (hin : inBounds m = true) :
    step dir w g m = if lineOf m = PASSWORD then
        some ({ w with phase := Phase.command }, g, ["Password correct.\n".toList])
      else some (w, g, ["Password incorrect. Try again.\n".toList]) := by
  have hm0 : ¬ m.length ≤ 0 := by omega
  simp only [step, hw, authStep, hm0, if_false, hin, if_true, strcmp_buffer, beq_iff_eq]
  split <;> rfl

/-- C1, amended: for every non-empty read received while authenticating, the worker accepts
(replies `Password correct.` and enters the command loop) if and only if the bytes before
the first newline or NUL equal `secret`; on every other read that leaves a newline or NUL
inside the 256-byte buffer it replies `Password incorrect. Try again.` and stays in the
authenticating state unchanged, so any number of such rejected attempts leaves it
authenticating, each answered by the same reply. -/
theorem auth_accepts_iff_line_is_password (dir : Option (List Dirent)) (w : Worker) (g : Shared)
    (msg : Bytes) (hw : w.phase = Phase.auth) (hmsg : 0 < msg.length) :
    (step dir w g msg =
          some ({ w with phase := Phase.command }, g, ["Password correct.\n".toList]) ↔
        lineOf msg = PASSWORD) ∧
      (inBounds msg = true → lineOf msg ≠ PASSWORD →
        step dir w g msg = some (w, g, ["Password incorrect. Try again.\n".toList])) ∧
      (∀ attempts : List Bytes,
        (∀ m ∈ attempts, 0 < m.length ∧ inBounds m = true ∧ lineOf m ≠ PASSWORD) →
        run w g (attempts.map (fun m => (dir, m))) =
          some (w, g, attempts.flatMap (fun _ =>
              ["Enter the password: ".toList, "Password incorrect. Try again.\n".toList]) ++
            ["Enter the password: ".toList])) := by
  refine ⟨?_, ?_, ?_⟩
  · constructor
    · intro h
      by_contra hne
      by_cases hin : inBounds msg = true
      · rw [step_auth dir w g msg hw hmsg hin, if_neg hne] at h
        have h2 : ["Password incorrect. Try again.\n".toList] = ["Password correct.\n".toList] :=
          congrArg (fun r => r.2.2) (Option.some.inj h)
        exact absurd h2 (by decide)
      · have hm0 : ¬ msg.length ≤ 0 := by omega
        simp [step, hw, authStep, hm0, hin] at h
    · intro h
      have hin : inBounds msg = true := by
        apply inBounds_of_line_lt
        rw [h]
        decide
      rw [step_auth dir w g msg hw hmsg hin, if_pos h]
  · intro hin hne
    rw [step_auth dir w g msg hw hmsg hin, if_neg hne]
  · intro attempts
    induction attempts with
    | nil => intro _; simp [run, promptOf, hw]
    | cons m ms ih =>
      intro hall
      have hm := hall m (List.mem_cons_self _ _)
      have hrest := ih (fun x hx => hall x (List.mem_cons_of_mem _ hx))
      simp only [List.map_cons, run, step_auth dir w g m hw hm.1 hm.2.1, if_neg hm.2.2, hrest,
        promptOf, hw, List.flatMap_cons]
      simp

/-- C1, amended, at concrete reads: `secret` followed by a newline is accepted and
`Secret` is rejected. -/
theorem auth_accepts_iff_line_is_password_witness :
    step none { phase := Phase.auth, readFile := false, name := [] } emptyShared "secret\n".toList =
        some ({ phase := Phase.command, readFile := false, name := [] }, emptyShared,
          ["Password correct.\n".toList]) ∧
      step none { phase := Phase.auth, readFile := false, name := [] } emptyShared "Secret\n".toList =
        some ({ phase := Phase.auth, readFile := false, name := [] }, emptyShared,
          ["Password incorrect. Try again.\n".toList]) :=
  ⟨(auth_accepts_iff_line_is_password none { phase := Phase.auth, readFile := false, name := [] }
      emptyShared "secret\n".toList rfl (by decide)).1.2 (by decide),
   (auth_accepts_iff_line_is_password none { phase := Phase.auth, readFile := false, name := [] }
      emptyShared "Secret\n".toList rfl (by decide)).2.1 (by decide) (by decide)⟩

/-! ## Download -/

/-- C3: for every file name the command loop can pass (at most 247 characters) that is
present in the store with content `c`, `send_file` sends exactly one payload message, the
marker `||` followed by the first `min |c| 1022` bytes of `c`, and then the control line
`File <name> downloaded successfully.`; when `|c| > 1022` the payload is the first 1022
bytes of `c`. -/
theorem send_file_present (g : Shared) (name c : Bytes) (hlen : name.length ≤ 247)
    (hc : fopen_r g.store (FILES_DIR ++ "/".toList ++ name) = some c) :
    send_file g name =
        [ "||".toList ++ c.take (min c.length 1022),
          "File ".toList ++ name ++ " downloaded successfully.\n".toList ] ∧
      (1022 < c.length →
        send_file g name =
          [ "||".toList ++ c.take 1022,
            "File ".toList ++ name ++ " downloaded successfully.\n".toList ] ∧
        (c.take 1022).length = 1022) := by
  have hsend := send_file_found g name c hlen hc
  refine ⟨?_, ?_⟩
  · rw [hsend]
    rcases Nat.le_total c.length 1022 with h | h
    · rw [Nat.min_eq_left h, List.take_of_length_le h, List.take_of_length_le (le_refl _)]
    · rw [Nat.min_eq_right h]
  · intro h
    exact ⟨hsend, by simp; omega⟩

/-- C3 at a concrete store: a file of 1500 bytes is sent as the marker and its first
1022 bytes. -/
theorem send_file_present_witness :
    send_file { file_data := [], store := { files := [("./files/big.bin".toList,
          List.replicate 1022 'a' ++ List.replicate 478 'b')], writable := fun _ => true } }
        "big.bin".toList =
      [ "||".toList ++ (List.replicate 1022 'a' ++ List.replicate 478 'b').take 1022,
        "File ".toList ++ "big.bin".toList ++ " downloaded successfully.\n".toList ] :=
  ((send_file_present { file_data := [], store := { files := [("./files/big.bin".toList,
          List.replicate 1022 'a' ++ List.replicate 478 'b')], writable := fun _ => true } }
      "big.bin".toList (List.replicate 1022 'a' ++ List.replicate 478 'b') (by decide)
      rfl).2 (by rw [List.length_append, List.length_replicate, List.length_replicate]; omega)).1

/-- C4, as stated, fails: for an absent file whose name has 239 characters the reply is
cut to 255 characters and is not the newline-terminated line `File <name> not found.`. -/
theorem download_absent_long_name_truncated :
    (step none authenticated emptyShared
        ("download ".toList ++ List.replicate 239 'a' ++ "\n".toList)).map (fun r => r.2.2) =
      some [(("File ".toList ++ List.replicate 239 'a' ++ " not found.\n".toList).take 255)] ∧
    ("File ".toList ++ List.replicate 239 'a' ++ " not found.\n".toList).take 255 ≠
      "File ".toList ++ List.replicate 239 'a' ++ " not found.\n".toList := by
  decide

/-- C4, amended: for every file name of at most 238 characters that is absent from the
store, the command `download <name>`, received in the command-wait state, makes the
server send exactly the control line `File <name> not found.` with its newline and no
payload message, and leaves the worker and the shared state as they were. -/
theorem download_absent_not_found (dir : Option (List Dirent)) (w : Worker) (g : Shared)
    (name : Bytes) (hw : w.phase = Phase.command) (hr : w.readFile = false) (hname : plain name)
    (hlen : name.length ≤ 238)
    (habsent : fopen_r g.store (FILES_DIR ++ "/".toList ++ name) = none) :
    step dir w g ("download ".toList ++ name ++ "\n".toList) =
      some (w, g, ["File ".toList ++ name ++ " not found.\n".toList]) := by
  have hline : snprintf 256 ("File ".toList ++ name ++ " not found.\n".toList) =
      "File ".toList ++ name ++ " not found.\n".toList := by
    unfold snprintf
    apply List.take_of_length_le
    simp
    omega
  have hfit : ("download ".toList ++ name ++ "\n".toList).length ≤ 256 := by
    simp
    omega
  simp only [step, hw, cmdStep_download dir w g name hr hname hfit]
  unfold send_file
  rw [filepath_short name (by omega), habsent]
  simp only [hline]

/-- C4, amended, at the input of the specification: `download missing.txt` on an empty
store yields `File missing.txt not found.`. -/
theorem download_absent_not_found_witness :
    step none authenticated emptyShared "download missing.txt\n".toList =
      some (authenticated, emptyShared, ["File missing.txt not found.\n".toList]) :=
  download_absent_not_found none authenticated emptyShared "missing.txt".toList rfl rfl
    (by decide) (by decide) (by decide)

/-! ## Listing, exit and unrecognised commands -/

theorem stage_store (g : Shared) (buffer : Bytes) (n : Nat) :
    (stage g buffer n).store = g.store := by
  unfold stage
  split <;> rfl

/-- C5, as stated, fails: the output for `list` starts with a header that is not the name
of any entry, so it is not exactly the names of the regular files. -/
theorem list_output_not_only_names :
    (step (some [⟨"a.txt".toList, DType.DT_REG⟩, ⟨"sub".toList, DType.DT_DIR⟩])
        authenticated emptyShared "list\n".toList).map (fun r => r.2.2) =
      some ["\nFiles in the directory:\n\n".toList, "a.txt\n".toList] ∧
    ["\nFiles in the directory:\n\n".toList, "a.txt\n".toList] ≠ ["a.txt\n".toList] := by
  decide

/-- C5, amended: for every sequence of directory entries returned by the enumeration of the
store directory (names of at most 255 characters, as `d_name` holds), the output written
for `list` is the header `\nFiles in the directory:\n\n` followed by exactly the names of
the entries whose type is regular file, each on its own line, in enumeration order, with
no line for any other entry; a worker in the command-wait state that reads `list` writes
exactly that and changes nothing. -/
theorem list_output (entries : List Dirent) (hnames : ∀ e ∈ entries, e.d_name.length ≤ 255) :
    send_file_list (some entries) =
        "\nFiles in the directory:\n\n".toList ::
          (entries.filter (fun e => e.d_type == DType.DT_REG)).map
            (fun e => e.d_name ++ "\n".toList) ∧
      (∀ (w : Worker) (g : Shared), w.phase = Phase.command → w.readFile = false →
        step (some entries) w g "list\n".toList =
          some (w, g, "\nFiles in the directory:\n\n".toList ::
            (entries.filter (fun e => e.d_type == DType.DT_REG)).map
              (fun e => e.d_name ++ "\n".toList))) := by
  have hlist : send_file_list (some entries) =
      "\nFiles in the directory:\n\n".toList ::
        (entries.filter (fun e => e.d_type == DType.DT_REG)).map
          (fun e => e.d_name ++ "\n".toList) := by
    simp only [send_file_list, List.cons.injEq, true_and]
    apply List.map_congr_left
    intro e he
    have hle := hnames e (List.mem_of_mem_filter he)
    unfold snprintf
    apply List.take_of_length_le
    rw [List.length_append]
    have : ("\n".toList).length = 1 := by decide
    omega
  refine ⟨hlist, ?_⟩
  intro w g hw hr
  have hlen : ¬ ("list\n".toList).length ≤ 0 := by decide
  have hline : lineOf "list\n".toList = "list".toList := by decide
  have hin : inBounds "list\n".toList = true := by decide
  simp only [step, hw, cmdStep, if_neg hlen, hin, if_true, dispatch, stage, strcmp_buffer,
    strncmp_buffer _ plain_marker, hline, hlist]
  simp [storePending_idle _ _ _ hr]

/-- C5, amended, at a concrete directory: a regular file, a subdirectory and a second
regular file are listed as the header and the two file names. -/
theorem list_output_witness :
    step (some [⟨"a.txt".toList, DType.DT_REG⟩, ⟨"sub".toList, DType.DT_DIR⟩,
          ⟨"b.txt".toList, DType.DT_REG⟩]) authenticated emptyShared "list\n".toList =
      some (authenticated, emptyShared,
        ["\nFiles in the directory:\n\n".toList, "a.txt\n".toList, "b.txt\n".toList]) :=
  (list_output [⟨"a.txt".toList, DType.DT_REG⟩, ⟨"sub".toList, DType.DT_DIR⟩,
    ⟨"b.txt".toList, DType.DT_REG⟩] (by decide)).2 authenticated emptyShared rfl rfl

theorem run_closed (w : Worker) (g : Shared) (hw : w.phase = Phase.closed)
    (later : List (Option (List Dirent) × Bytes)) : run w g later = some (w, g, []) := by
  induction later with
  | nil => simp [run, promptOf, hw]
  | cons e es ih =>
    obtain ⟨d, m⟩ := e
    simp [run, step, promptOf, hw, ih]

/-- C6: in every state of an authenticated session, whether or not an upload payload is
awaited, a read whose line is `exit` moves the worker to the closed state without any
message sent and without touching the shared state, and whatever is sent after it the
worker writes nothing more. -/
theorem exit_closes_silently (dir : Option (List Dirent)) (w : Worker) (g : Shared)
    (msg : Bytes) (later : List (Option (List Dirent) × Bytes))
    (hw : w.phase = Phase.command) (hexit : lineOf msg = "exit".toList) :
    step dir w g msg = some ({ w with phase := Phase.closed }, g, []) ∧
      run { w with phase := Phase.closed } g later =
        some ({ w with phase := Phase.closed }, g, []) ∧
      run w g ((dir, msg) :: later) = some ({ w with phase := Phase.closed }, g, promptOf w) := by
  have hlen : ¬ msg.length ≤ 0 := by
    intro h
    have : msg = [] := List.length_eq_zero.mp (by omega)
    subst this
    exact absurd hexit (by decide)
  have hin : inBounds msg = true := by
    apply inBounds_of_line_lt
    rw [hexit]
    decide
  have hstep : step dir w g msg = some ({ w with phase := Phase.closed }, g, []) := by
    simp only [step, hw, cmdStep, if_neg hlen, hin, if_true, dispatch, stage, strcmp_buffer,
      strncmp_buffer _ plain_marker, strncmp_buffer _ plain_download,
      strncmp_buffer _ plain_upload, hexit]
    simp
  have hrun := run_closed { w with phase := Phase.closed } g rfl later
  refine ⟨hstep, hrun, ?_⟩
  simp only [run, hstep, hrun]
  simp

/-- C6 at a concrete session: a worker awaiting an upload payload receives `exit` and then
two more commands; nothing is written. -/
theorem exit_closes_silently_witness :
    run { phase := Phase.command, readFile := true, name := "a.txt".toList } emptyShared
        [(none, "exit\n".toList), (none, "list\n".toList), (none, "download a.txt\n".toList)] =
      some ({ phase := Phase.closed, readFile := true, name := "a.txt".toList }, emptyShared, []) :=
  (exit_closes_silently none { phase := Phase.command, readFile := true, name := "a.txt".toList }
    emptyShared "exit\n".toList [(none, "list\n".toList), (none, "download a.txt\n".toList)]
    rfl (by decide)).2.2

/-- C8, as stated, fails: on an unrecognised command the server worker writes nothing to
the peer. -/
theorem unknown_command_gets_no_response :
    (step none authenticated emptyShared "frobnicate\n".toList).map (fun r => (r.1, r.2.2)) =
      some (authenticated, []) := by
  decide

/-- C8, amended: for every message received while no upload payload is awaited, with a
newline or NUL inside the 256-byte buffer, whose line is none of `list`,
`download <name>`, `upload <name>`, `exit`, the worker writes no response at all, stays in
the command-wait state with its locals unchanged, and leaves the file store as it was. -/
theorem unknown_command_silent (dir : Option (List Dirent)) (w : Worker) (g : Shared)
    (msg : Bytes) (hw : w.phase = Phase.command) (hr : w.readFile = false)
    (hmsg : 0 < msg.length) (hin : inBounds msg = true)
    (hlist : lineOf msg ≠ "list".toList)
    (hdown : (lineOf msg).take 9 ≠ "download ".toList)
    (hup : (lineOf msg).take 7 ≠ "upload ".toList)
    (hexit : lineOf msg ≠ "exit".toList) :
    ∃ g2 : Shared, step dir w g msg = some (w, g2, []) ∧ g2.store = g.store := by
  have hlen : ¬ msg.length ≤ 0 := by omega
  have h9 : ("download ".toList).length = 9 := by decide
  have h7 : ("upload ".toList).length = 7 := by decide
  refine ⟨stage g (stripNewline (recvBuffer msg)) msg.length, ?_, stage_store _ _ _⟩
  simp only [step, hw, cmdStep, if_neg hlen, hin, if_true, dispatch, strcmp_buffer,
    strncmp_buffer _ plain_download, strncmp_buffer _ plain_upload, h9, h7, beq_iff_eq, hlist,
    hdown, hup, hexit, if_false, storePending_idle _ _ _ hr]

/-- C8, amended, at a concrete command: `frobnicate` is answered by nothing. -/
theorem unknown_command_silent_witness :
    ∃ g2 : Shared, step none authenticated emptyShared "frobnicate\n".toList =
      some (authenticated, g2, []) ∧ g2.store = emptyShared.store :=
  unknown_command_silent none authenticated emptyShared "frobnicate\n".toList rfl rfl
    (by decide) (by decide) (by decide) (by decide) (by decide) (by decide)

/-! ## Upload followed by download -/

/-- C2, as stated, fails, in six ways.  A payload with a newline comes back with that
newline replaced by a NUL byte; a payload of 255 bytes comes back as its first 254 bytes;
a payload of 254 bytes with no NUL fills the 256-byte array and sends the newline strip
past its end; an empty payload creates no file, and the download reports the file as not
found; after a payload message received earlier in the session, the upload stores those
earlier bytes; and where the store refuses the write, nothing is stored. -/
theorem upload_download_not_identical :
    (serve authenticated emptyShared
        ["upload a.txt\n".toList, "||a\nb".toList, "download a.txt\n".toList]).map
        (fun r => r.2.2) =
      some [ "Enter the command (list, download <filename>, upload <filename>, exit):\n".toList,
        "File a.txt uploaded successfully.\n".toList,
        "Enter the command (list, download <filename>, upload <filename>, exit):\n".toList,
        "||a".toList ++ [NUL] ++ "b".toList,
        "File a.txt downloaded successfully.\n".toList,
        "Enter the command (list, download <filename>, upload <filename>, exit):\n".toList ] ∧
    (serve authenticated emptyShared
        ["upload a.txt\n".toList,
          "||".toList ++ (List.replicate 127 'x' ++ NUL :: List.replicate 127 'y'),
          "download a.txt\n".toList]).map (fun r => r.2.2) =
      some [ "Enter the command (list, download <filename>, upload <filename>, exit):\n".toList,
        "File a.txt uploaded successfully.\n".toList,
        "Enter the command (list, download <filename>, upload <filename>, exit):\n".toList,
        "Enter the command (list, download <filename>, upload <filename>, exit):\n".toList,
        "||".toList ++ (List.replicate 127 'x' ++ NUL :: List.replicate 126 'y'),
        "File a.txt downloaded successfully.\n".toList,
        "Enter the command (list, download <filename>, upload <filename>, exit):\n".toList ] ∧
    (serve authenticated emptyShared
        ["upload a.txt\n".toList, "||".toList ++ List.replicate 254 'x',
          "download a.txt\n".toList]).map (fun r => r.2.2) = none ∧
    (serve authenticated emptyShared
        ["upload a.txt\n".toList, "||".toList, "download a.txt\n".toList]).map
        (fun r => r.2.2) =
      some [ "Enter the command (list, download <filename>, upload <filename>, exit):\n".toList,
        "File a.txt not found.\n".toList ] ∧
    (serve authenticated emptyShared
        ["||old".toList, "upload a.txt\n".toList, "||new".toList,
          "download a.txt\n".toList]).map (fun r => r.2.2) =
      some [ "Enter the command (list, download <filename>, upload <filename>, exit):\n".toList,
        "Enter the command (list, download <filename>, upload <filename>, exit):\n".toList,
        "File a.txt uploaded successfully.\n".toList,
        "Enter the command (list, download <filename>, upload <filename>, exit):\n".toList,
        "Enter the command (list, download <filename>, upload <filename>, exit):\n".toList,
        "||old".toList,
        "File a.txt downloaded successfully.\n".toList,
        "Enter the command (list, download <filename>, upload <filename>, exit):\n".toList ] ∧
    (serve authenticated lockedShared
        ["upload a.txt\n".toList, "||hello".toList, "download a.txt\n".toList]).map
        (fun r => r.2.2) =
      some [ "Enter the command (list, download <filename>, upload <filename>, exit):\n".toList,
        "Error writing file to the server.\n".toList,
        "Enter the command (list, download <filename>, upload <filename>, exit):\n".toList,
        "File a.txt not found.\n".toList,
        "Enter the command (list, download <filename>, upload <filename>, exit):\n".toList ] := by
  decide

/-- C2, amended: in a single session in the command-wait state with an empty transfer
buffer, for every file name of at most 246 characters that the store lets the server write and
every payload of 1 to 253 bytes with no newline byte before its first NUL byte, sending
`upload <name>`, then one payload message (`||` and the bytes), then `download <name>`
makes the server return a payload message whose bytes are the original payload. -/
theorem upload_download_roundtrip (w : Worker) (g : Shared) (name p : Bytes)
    (hw : w.phase = Phase.command) (hr : w.readFile = false) (hg : g.file_data = [])
    (hname : plain name) (hnlen : name.length ≤ 246)
    (hp0 : 0 < p.length) (hplen : p.length ≤ 253) (hnl : NL ∉ cstr p)
    (hwr : g.store.writable (FILES_DIR ++ "/".toList ++ name) = true) :
    (serve w g ["upload ".toList ++ name ++ "\n".toList, "||".toList ++ p,
        "download ".toList ++ name ++ "\n".toList]).map (fun r => r.2.2) =
      some [ "Enter the command (list, download <filename>, upload <filename>, exit):\n".toList,
        snprintf 256 ("File ".toList ++ name ++ " uploaded successfully.\n".toList),
        "Enter the command (list, download <filename>, upload <filename>, exit):\n".toList,
        "||".toList ++ p,
        "File ".toList ++ name ++ " downloaded successfully.\n".toList,
        "Enter the command (list, download <filename>, upload <filename>, exit):\n".toList ] := by
  obtain ⟨ph, rf, nm⟩ := w
  simp only at hw hr
  subst hw hr
  have hpath : filepath name = FILES_DIR ++ "/".toList ++ name := filepath_short name (by omega)
  have f1 : ("upload ".toList ++ name ++ "\n".toList).length ≤ 256 := by simp; omega
  have f2 : ("||".toList ++ p).length < 256 := by simp; omega
  have f3 : ("download ".toList ++ name ++ "\n".toList).length ≤ 256 := by simp; omega
  have d1 : deliver ("upload ".toList ++ name ++ "\n".toList) =
      ["upload ".toList ++ name ++ "\n".toList] := deliver_short _ (by simp) f1
  have d2 : deliver ("||".toList ++ p) = ["||".toList ++ p] :=
    deliver_short _ (by simp) (by omega)
  have d3 : deliver ("download ".toList ++ name ++ "\n".toList) =
      ["download ".toList ++ name ++ "\n".toList] := deliver_short _ (by simp) f3
  have s1 := cmdStep_upload none { phase := Phase.command, readFile := false, name := nm } g name
    hg hname f1
  have s2 := cmdStep_payload none { phase := Phase.command, readFile := true, name := name } g p
    rfl hp0 f2 hnl (by rw [hpath]; exact hwr)
  have s3 := cmdStep_download none { phase := Phase.command, readFile := false, name := name }
    { file_data := [], store := fwrite_all g.store (filepath name) p } name rfl hname f3
  have hsend := send_file_found
    { file_data := [], store := fwrite_all g.store (filepath name) p } name p (by omega)
    (by rw [← hpath]; exact fopen_after_write _ _ _)
  rw [List.take_of_length_le (by omega)] at hsend
  simp only [serve, List.flatMap_cons, List.flatMap_nil, d1, d2, d3, List.append_nil,
    List.singleton_append, List.map_cons, List.map_nil, run, step, s1, s2, s3, hsend,
    promptOf]
  simp

/-- C2, amended, at a concrete session: `hello` uploaded as `a.txt` comes back as `||hello`. -/
theorem upload_download_roundtrip_witness :
    (serve authenticated emptyShared ["upload ".toList ++ "a.txt".toList ++ "\n".toList,
        "||".toList ++ "hello".toList, "download ".toList ++ "a.txt".toList ++ "\n".toList]).map
        (fun r => r.2.2) =
      some [ "Enter the command (list, download <filename>, upload <filename>, exit):\n".toList,
        snprintf 256 ("File ".toList ++ "a.txt".toList ++ " uploaded successfully.\n".toList),
        "Enter the command (list, download <filename>, upload <filename>, exit):\n".toList,
        "||".toList ++ "hello".toList,
        "File ".toList ++ "a.txt".toList ++ " downloaded successfully.\n".toList,
        "Enter the command (list, download <filename>, upload <filename>, exit):\n".toList ] :=
  upload_download_roundtrip authenticated emptyShared "a.txt".toList "hello".toList rfl rfl rfl
    (by decide) (by decide) (by decide) (by decide) (by decide) rfl

/-! ## The upload command and the empty payload -/

theorem cmdStep_keeps_shared (dir : Option (List Dirent)) (w : Worker) (g : Shared) (msg : Bytes)
    (hg : g.file_data = []) (hin : inBounds msg = true)
    (hm : (lineOf msg).take 2 ≠ "||".toList) :
    ∃ w2 out, cmdStep dir w g msg = some (w2, g, out) := by
  unfold cmdStep
  by_cases hl : msg.length ≤ 0
  · rw [if_pos hl]
    exact ⟨_, _, rfl⟩
  · rw [if_neg hl, if_pos hin]
    simp only [stage_control g msg _ hm, dispatch]
    split_ifs <;> simp [storePending_empty _ _ _ hg]

theorem step_keeps_shared (dir : Option (List Dirent)) (w : Worker) (g : Shared) (msg : Bytes)
    (hg : g.file_data = []) (hin : inBounds msg = true)
    (hm : (lineOf msg).take 2 ≠ "||".toList) :
    ∃ w2 out, step dir w g msg = some (w2, g, out) := by
  unfold step
  split
  · unfold authStep
    by_cases hl : msg.length ≤ 0
    · rw [if_pos hl]
      exact ⟨_, _, rfl⟩
    · rw [if_neg hl, if_pos hin]
      by_cases hs : strcmp_eq (stripNewline (recvBuffer msg)) PASSWORD = true
      · simp only [hs, if_true]
        exact ⟨_, _, rfl⟩
      · simp only [hs, if_false]
        exact ⟨_, _, rfl⟩
  · exact cmdStep_keeps_shared dir w g msg hg hin hm
  · exact ⟨_, _, rfl⟩

theorem run_keeps_shared (g : Shared) (hg : g.file_data = [])
    (events : List (Option (List Dirent) × Bytes))
    (hev : ∀ e ∈ events, inBounds e.2 = true ∧ (lineOf e.2).take 2 ≠ "||".toList) (w : Worker) :
    ∃ w2 out, run w g events = some (w2, g, out) := by
  induction events generalizing w with
  | nil => exact ⟨_, _, rfl⟩
  | cons e es ih =>
    obtain ⟨d, m⟩ := e
    have he := hev (d, m) (List.mem_cons_self _ _)
    obtain ⟨w1, o1, h1⟩ := step_keeps_shared d w g m hg he.1 he.2
    obtain ⟨w2, o2, h2⟩ := ih (fun x hx => hev x (List.mem_cons_of_mem _ hx)) w1
    exact ⟨w2, promptOf w ++ o1 ++ o2, by simp only [run, h1, h2]⟩

/-- C9, as stated, fails: after a payload message received while no upload was pending, the
step that processes `upload f.txt` itself writes the file from the bytes left in the
transfer buffer, reports success to the peer and does not await a payload. -/
theorem upload_command_consumes_stale_payload :
    (run authenticated emptyShared
        [(none, "||abc".toList), (none, "upload f.txt\n".toList)]).map
        (fun r => (r.1.readFile, fopen_r r.2.1.store "./files/f.txt".toList, r.2.2)) =
      some (false, some "abc".toList,
        [ "Enter the command (list, download <filename>, upload <filename>, exit):\n".toList,
          "Enter the command (list, download <filename>, upload <filename>, exit):\n".toList,
          "File f.txt uploaded successfully.\n".toList,
          "Enter the command (list, download <filename>, upload <filename>, exit):\n".toList ]) := by
  decide

/-- C9, amended: for every state of an authenticated session in which the shared transfer
buffer is empty and every file name that fits a read, the step that processes
`upload <name>` only records the file name and sets the awaiting-payload flag, with no
write to the file store and no message to the peer; and from a state with an empty
transfer buffer no sequence of reads without a payload message changes the file store or
the transfer buffer. -/
theorem upload_command_only_records (dir : Option (List Dirent)) (w : Worker) (g : Shared)
    (name : Bytes) (hw : w.phase = Phase.command) (hg : g.file_data = [])
    (hname : plain name) (hfit : ("upload ".toList ++ name ++ "\n".toList).length ≤ 256) :
    step dir w g ("upload ".toList ++ name ++ "\n".toList) =
        some ({ w with readFile := true, name := name }, g, []) ∧
      (∀ (w2 : Worker) (events : List (Option (List Dirent) × Bytes)),
        (∀ e ∈ events, inBounds e.2 = true ∧ (lineOf e.2).take 2 ≠ "||".toList) →
        ∃ w3 out, run w2 g events = some (w3, g, out)) := by
  refine ⟨?_, ?_⟩
  · have h := cmdStep_upload dir w g name hg hname hfit
    simp only [step, hw]
    rw [h, hw]
  · intro w2 events hev
    exact run_keeps_shared g hg events hev w2

/-- C9, amended, at a concrete session: `upload f.txt` on a fresh session only sets the
flag and the name. -/
theorem upload_command_only_records_witness :
    step none authenticated emptyShared ("upload ".toList ++ "f.txt".toList ++ "\n".toList) =
      some ({ phase := Phase.command, readFile := true, name := "f.txt".toList },
        emptyShared, []) :=
  (upload_command_only_records none authenticated emptyShared "f.txt".toList rfl rfl
    (by decide) (by decide)).1

/-- C10 on the code: a session that sent `upload a.txt` and then the bare marker `||` gets
no reply at all (the only message written is the prompt that preceded the command), no
file is written, and the worker is still awaiting the payload. -/
theorem empty_payload_gets_no_reply :
    (run authenticated emptyShared
        [(none, "upload a.txt\n".toList), (none, "||".toList)]).map
        (fun r => (r.1, r.2.1.store.files, r.2.2)) =
      some ({ phase := Phase.command, readFile := true, name := "a.txt".toList }, [],
        [ "Enter the command (list, download <filename>, upload <filename>, exit):\n".toList ]) := by
  decide

/-! ## Two sessions on the shared transfer buffer -/

theorem threadStep_recv (t : Thread) (g : Shared) (msg : Bytes) (hp : t.pending = none)
    (hph : t.worker.phase = Phase.command) (hm : 0 < msg.length) (hin : inBounds msg = true) :
    threadStep t g (Action.recv msg) =
      some ({ t with pending := some (stripNewline (recvBuffer msg)),
                     sent := t.sent ++ promptOf t.worker },
        stage g (stripNewline (recvBuffer msg)) msg.length) := by
  obtain ⟨tw, tp, ts⟩ := t
  simp only at hp hph
  subst hp
  simp only [threadStep, hph, hm, and_self, if_true, hin]

theorem threadStep_resume (t : Thread) (g : Shared) (dir : Option (List Dirent)) (buffer : Bytes)
    (hp : t.pending = some buffer) :
    threadStep t g (Action.resume dir) =
      some ({ worker := (dispatch dir t.worker g buffer).1, pending := none,
              sent := t.sent ++ (dispatch dir t.worker g buffer).2.2 },
        (dispatch dir t.worker g buffer).2.1) := by
  obtain ⟨tw, tp, ts⟩ := t
  simp only at hp
  subst hp
  simp only [threadStep]

/-- The two segments of a thread, run back to back, are one iteration of the command loop
of the sequential model. -/
theorem thread_iteration (t : Thread) (g : Shared) (dir : Option (List Dirent)) (msg : Bytes)
    (hp : t.pending = none) (hph : t.worker.phase = Phase.command) (hm : 0 < msg.length)
    (hin : inBounds msg = true) :
    (threadStep t g (Action.recv msg)).bind (fun r => threadStep r.1 r.2 (Action.resume dir)) =
      (cmdStep dir t.worker g msg).map (fun r =>
        ({ worker := r.1, pending := none, sent := t.sent ++ promptOf t.worker ++ r.2.2 },
          r.2.1)) := by
  have hl : ¬ msg.length ≤ 0 := by omega
  rw [threadStep_recv t g msg hp hph hm hin]
  simp only [Option.some_bind]
  rw [threadStep_resume _ _ dir _ rfl]
  simp only [cmdStep, if_neg hl, hin, if_true, Option.map_some']

theorem runSchedule_cons_some (s s2 : System) (e : Tid × Action) (rest : List (Tid × Action))
    (h : sysStep s e = some s2) : runSchedule s (e :: rest) = runSchedule s2 rest := by
  simp only [runSchedule, h]

/-- Session A of a system receives `upload <name>` while the transfer buffer is empty. -/
theorem sys_upload_A (ta tb : Thread) (g : Shared) (name : Bytes) (rest : List (Tid × Action))
    (hp : ta.pending = none) (hph : ta.worker.phase = Phase.command) (hg : g.file_data = [])
    (hname : plain name) (hfit : ("upload ".toList ++ name ++ "\n".toList).length ≤ 256) :
    runSchedule { a := ta, b := tb, shared := g }
        ((Tid.A, Action.recv ("upload ".toList ++ name ++ "\n".toList)) ::
          (Tid.A, Action.resume none) :: rest) =
      runSchedule
        { a := { worker := { ta.worker with readFile := true, name := name }, pending := none,
                 sent := ta.sent ++ promptOf ta.worker },
          b := tb, shared := g } rest := by
  have hlen : name.length ≤ 255 := by
    simp at hfit
    omega
  have h1 : sysStep { a := ta, b := tb, shared := g }
      (Tid.A, Action.recv ("upload ".toList ++ name ++ "\n".toList)) =
      some { a := { ta with
                    pending := some (stripNewline
                      (recvBuffer ("upload ".toList ++ name ++ "\n".toList))),
                    sent := ta.sent ++ promptOf ta.worker },
             b := tb, shared := g } := by
    simp only [sysStep]
    rw [threadStep_recv ta g _ hp hph (by simp)
      (inBounds_line _ (plain_append _ _ plain_upload hname) hfit),
      stage_control g _ _ (upload_not_marker name hname)]
    rfl
  rw [runSchedule_cons_some _ _ _ _ h1]
  apply runSchedule_cons_some
  simp only [sysStep]
  rw [threadStep_resume _ g none _ rfl]
  simp only [dispatch_upload none _ g _ hname hlen, storePending_empty _ g _ hg,
    List.append_nil, Option.map_some']

/-- Session B of a system receives `upload <name>` while the transfer buffer is empty. -/
theorem sys_upload_B (ta tb : Thread) (g : Shared) (name : Bytes) (rest : List (Tid × Action))
    (hp : tb.pending = none) (hph : tb.worker.phase = Phase.command) (hg : g.file_data = [])
    (hname : plain name) (hfit : ("upload ".toList ++ name ++ "\n".toList).length ≤ 256) :
    runSchedule { a := ta, b := tb, shared := g }
        ((Tid.B, Action.recv ("upload ".toList ++ name ++ "\n".toList)) ::
          (Tid.B, Action.resume none) :: rest) =
      runSchedule
        { a := ta,
          b := { worker := { tb.worker with readFile := true, name := name }, pending := none,
                 sent := tb.sent ++ promptOf tb.worker },
          shared := g } rest := by
  have hlen : name.length ≤ 255 := by
    simp at hfit
    omega
  have h1 : sysStep { a := ta, b := tb, shared := g }
      (Tid.B, Action.recv ("upload ".toList ++ name ++ "\n".toList)) =
      some { a := ta,
             b := { tb with
                    pending := some (stripNewline
                      (recvBuffer ("upload ".toList ++ name ++ "\n".toList))),
                    sent := tb.sent ++ promptOf tb.worker },
             shared := g } := by
    simp only [sysStep]
    rw [threadStep_recv tb g _ hp hph (by simp)
      (inBounds_line _ (plain_append _ _ plain_upload hname) hfit),
      stage_control g _ _ (upload_not_marker name hname)]
    rfl
  rw [runSchedule_cons_some _ _ _ _ h1]
  apply runSchedule_cons_some
  simp only [sysStep]
  rw [threadStep_resume _ g none _ rfl]
  simp only [dispatch_upload none _ g _ hname hlen, storePending_empty _ g _ hg,
    List.append_nil, Option.map_some']

/-- C7: two sessions A and B on one shared transfer buffer both upload; there is an
interleaving, in which B stages its payload after A staged its own and before A runs its
write, after which the file stored under the name A recorded holds B's payload bytes. -/
theorem interleaved_uploads_cross (g : Shared) (nameA nameB pA pB : Bytes)
    (hg : g.file_data = []) (hA : plain nameA) (hAlen : nameA.length ≤ 247)
    (hB : plain nameB) (hBlen : nameB.length ≤ 247)
    (hpA : pA.length ≤ 253) (hpB : 0 < pB.length) (hpBlen : pB.length ≤ 253)
    (hnl : NL ∉ cstr pB)
    (hwr : g.store.writable (FILES_DIR ++ "/".toList ++ nameA) = true) :
    ∃ (sched : List (Tid × Action)) (final : System),
      receivedBy Tid.A sched = ["upload ".toList ++ nameA ++ "\n".toList, "||".toList ++ pA] ∧
      receivedBy Tid.B sched = ["upload ".toList ++ nameB ++ "\n".toList, "||".toList ++ pB] ∧
      runSchedule (sessionsOn g) sched = some final ∧
      final.a.worker.name = nameA ∧
      fopen_r final.shared.store (FILES_DIR ++ "/".toList ++ nameA) = some pB := by
  have hpath : filepath nameA = FILES_DIR ++ "/".toList ++ nameA := filepath_short nameA hAlen
  have fA : ("upload ".toList ++ nameA ++ "\n".toList).length ≤ 256 := by simp; omega
  have fB : ("upload ".toList ++ nameB ++ "\n".toList).length ≤ 256 := by simp; omega
  have hrf : receive_file { file_data := pB, store := g.store } nameA =
      ({ file_data := [], store := fwrite_all g.store (filepath nameA) pB },
        [snprintf 256 ("File ".toList ++ nameA ++ " uploaded successfully.\n".toList)]) :=
    receive_file_ok { file_data := pB, store := g.store } nameA hpB (by rw [hpath]; exact hwr)
  have hstB : stage (stage g (stripNewline (recvBuffer ("||".toList ++ pA)))
      ("||".toList ++ pA).length) (stripNewline (recvBuffer ("||".toList ++ pB)))
      ("||".toList ++ pB).length = { file_data := pB, store := g.store } := by
    rw [stage_payload _ pB hnl, stage_store]
  have d1 : dispatch none { phase := Phase.command, readFile := true, name := nameA }
      { file_data := pB, store := g.store } (stripNewline (recvBuffer ("||".toList ++ pA))) =
      ({ phase := Phase.command, readFile := false, name := nameA },
        { file_data := [], store := fwrite_all g.store (filepath nameA) pB },
        [snprintf 256 ("File ".toList ++ nameA ++ " uploaded successfully.\n".toList)]) := by
    rw [dispatch_payload]
    unfold storePending
    rw [hrf]
    simp [hpB]
  have d2 : dispatch none { phase := Phase.command, readFile := true, name := nameB }
      { file_data := [], store := fwrite_all g.store (filepath nameA) pB }
      (stripNewline (recvBuffer ("||".toList ++ pB))) =
      ({ phase := Phase.command, readFile := true, name := nameB },
        { file_data := [], store := fwrite_all g.store (filepath nameA) pB }, []) := by
    rw [dispatch_payload, storePending_empty _ _ _ rfl]
  refine ⟨crossed nameA nameB pA pB,
    { a := { worker := { phase := Phase.command, readFile := false, name := nameA },
             pending := none,
             sent := promptOf authenticated ++
               [snprintf 256 ("File ".toList ++ nameA ++ " uploaded successfully.\n".toList)] },
      b := { worker := { phase := Phase.command, readFile := true, name := nameB },
             pending := none, sent := promptOf authenticated },
      shared := { file_data := [], store := fwrite_all g.store (filepath nameA) pB } },
    ?_, ?_, ?_, rfl, ?_⟩
  · simp [crossed, receivedBy]
  · simp [crossed, receivedBy]
  · unfold crossed sessionsOn
    rw [sys_upload_A _ _ g nameA _ rfl rfl hg hA fA, sys_upload_B _ _ g nameB _ rfl rfl hg hB fB]
    have h5 : sysStep
        { a := { worker := { authenticated with readFile := true, name := nameA },
                 pending := none, sent := [] ++ promptOf authenticated },
          b := { worker := { authenticated with readFile := true, name := nameB },
                 pending := none, sent := [] ++ promptOf authenticated },
          shared := g } (Tid.A, Action.recv ("||".toList ++ pA)) =
        some { a := { worker := { phase := Phase.command, readFile := true, name := nameA },
                      pending := some (stripNewline (recvBuffer ("||".toList ++ pA))),
                      sent := promptOf authenticated },
               b := { worker := { phase := Phase.command, readFile := true, name := nameB },
                      pending := none, sent := promptOf authenticated },
               shared := stage g (stripNewline (recvBuffer ("||".toList ++ pA)))
                 ("||".toList ++ pA).length } := by
      simp only [sysStep]
      rw [threadStep_recv _ g _ rfl rfl (by simp) (inBounds_of_short _ (by simp; omega))]
      rfl
    rw [runSchedule_cons_some _ _ _ _ h5]
    have h6 : sysStep
        { a := { worker := { phase := Phase.command, readFile := true, name := nameA },
                 pending := some (stripNewline (recvBuffer ("||".toList ++ pA))),
                 sent := promptOf authenticated },
          b := { worker := { phase := Phase.command, readFile := true, name := nameB },
                 pending := none, sent := promptOf authenticated },
          shared := stage g (stripNewline (recvBuffer ("||".toList ++ pA)))
            ("||".toList ++ pA).length } (Tid.B, Action.recv ("||".toList ++ pB)) =
        some { a := { worker := { phase := Phase.command, readFile := true, name := nameA },
                      pending := some (stripNewline (recvBuffer ("||".toList ++ pA))),
                      sent := promptOf authenticated },
               b := { worker := { phase := Phase.command, readFile := true, name := nameB },
                      pending := some (stripNewline (recvBuffer ("||".toList ++ pB))),
                      sent := promptOf authenticated },
               shared := { file_data := pB, store := g.store } } := by
      simp only [sysStep]
      rw [threadStep_recv _ _ _ rfl rfl (by simp) (inBounds_of_short _ (by simp; omega)), hstB]
      rfl
    rw [runSchedule_cons_some _ _ _ _ h6]
    have h7 : sysStep
        { a := { worker := { phase := Phase.command, readFile := true, name := nameA },
                 pending := some (stripNewline (recvBuffer ("||".toList ++ pA))),
                 sent := promptOf authenticated },
          b := { worker := { phase := Phase.command, readFile := true, name := nameB },
                 pending := some (stripNewline (recvBuffer ("||".toList ++ pB))),
                 sent := promptOf authenticated },
          shared := { file_data := pB, store := g.store } } (Tid.A, Action.resume none) =
        some { a := { worker := { phase := Phase.command, readFile := false, name := nameA },
                      pending := none,
                      sent := promptOf authenticated ++ [snprintf 256
                        ("File ".toList ++ nameA ++ " uploaded successfully.\n".toList)] },
               b := { worker := { phase := Phase.command, readFile := true, name := nameB },
                      pending := some (stripNewline (recvBuffer ("||".toList ++ pB))),
                      sent := promptOf authenticated },
               shared := { file_data := [], store := fwrite_all g.store (filepath nameA) pB } } := by
      simp only [sysStep]
      rw [threadStep_resume _ _ none _ rfl]
      simp only [d1, Option.map_some']
    rw [runSchedule_cons_some _ _ _ _ h7]
    have h8 : sysStep
        { a := { worker := { phase := Phase.command, readFile := false, name := nameA },
                 pending := none,
                 sent := promptOf authenticated ++ [snprintf 256
                   ("File ".toList ++ nameA ++ " uploaded successfully.\n".toList)] },
          b := { worker := { phase := Phase.command, readFile := true, name := nameB },
                 pending := some (stripNewline (recvBuffer ("||".toList ++ pB))),
                 sent := promptOf authenticated },
          shared := { file_data := [], store := fwrite_all g.store (filepath nameA) pB } }
        (Tid.B, Action.resume none) =
        some { a := { worker := { phase := Phase.command, readFile := false, name := nameA },
                      pending := none,
                      sent := promptOf authenticated ++ [snprintf 256
                        ("File ".toList ++ nameA ++ " uploaded successfully.\n".toList)] },
               b := { worker := { phase := Phase.command, readFile := true, name := nameB },
                      pending := none, sent := promptOf authenticated },
               shared := { file_data := [], store := fwrite_all g.store (filepath nameA) pB } } := by
      simp only [sysStep]
      rw [threadStep_resume _ _ none _ rfl]
      simp only [d2, Option.map_some', List.append_nil]
    rw [runSchedule_cons_some _ _ _ _ h8]
    rfl
  · rw [← hpath]
    exact fopen_after_write _ _ _

/-- C7 at a concrete pair of uploads: after the interleaving, `./files/a.txt`, the name
recorded by session A, holds the bytes `from B`. -/
theorem interleaved_uploads_cross_witness :
    ∃ (sched : List (Tid × Action)) (final : System),
      receivedBy Tid.A sched =
        ["upload ".toList ++ "a.txt".toList ++ "\n".toList, "||".toList ++ "from A".toList] ∧
      receivedBy Tid.B sched =
        ["upload ".toList ++ "b.txt".toList ++ "\n".toList, "||".toList ++ "from B".toList] ∧
      runSchedule (sessionsOn emptyShared) sched = some final ∧
      final.a.worker.name = "a.txt".toList ∧
      fopen_r final.shared.store (FILES_DIR ++ "/".toList ++ "a.txt".toList) =
        some "from B".toList :=
  interleaved_uploads_cross emptyShared "a.txt".toList "b.txt".toList "from A".toList
    "from B".toList rfl (by decide) (by decide) (by decide) (by decide) (by decide) (by decide)
    (by decide) (by decide) rfl

end FileServer
